import Mathlib

/-!
# Verification of the secureAuth core against its specification

Shallow embedding of the TypeScript sources:
* `src/domain/permission.ts`  — permission vocabulary, validation, implication
* `src/domain/role.ts`        — role presets, permission normalization, merging
* `src/domain/user.ts`        — user entity and effective-permission (RBAC) evaluation
* `src/domain/session.ts`     — session entity, liveness predicate, revocation
* `src/services/auth.service.ts` — login / logout / MFA orchestration and lockout

Modelling conventions:
* ISO-8601 timestamps are modelled as epoch milliseconds (`Int`); the source
  round-trips `Date`/ISO strings losslessly at millisecond precision.
* JavaScript `undefined`-able fields are `Option _`; the `?? x` operator is
  `Option.getD x`; JS falsiness of a possibly-undefined string (`!s`) is
  `strFalsy` (undefined or empty), of a possibly-undefined number it is
  spelled out at each use site.
* The external Hasher and OTP Provider collaborators are abstract function
  records; file persistence is modelled by returning the list of records the
  operation passed to `updateUser` / `updateSession`.
* `ttlMinutes` is modelled as `Int` (the CLI passes integral minutes).
* JavaScript's stable `Array.prototype.sort` with the numeric comparator
  `ai - bi` is modelled by `List.insertionSort` over `permLe` (both compute
  the unique stable sort: keys nondecreasing, ties in original order).
-/

/- ===================== src/domain/permission.ts ===================== -/

/-- Splits a character list at every `':'` (accumulator holds the current
segment reversed). -/
def splitAux : List Char → List Char → List (List Char)
  | [], acc => [acc.reverse]
  | c :: cs, acc =>
    if c = ':' then acc.reverse :: splitAux cs [] else splitAux cs (c :: acc)

/-- JavaScript `value.split(':')` (no limit argument): the list of segments
of `s` between occurrences of `':'`. -/
def splitColon (s : String) : List String :=
  (splitAux s.data []).map String.mk

/-- Canonical permission catalog (`PERMISSIONS` in permission.ts), in source order. -/
def PERMISSIONS : List String :=
  [ "user:create", "user:read", "user:update", "user:delete", "user:list",
    "role:read", "role:list", "role:assign",
    "session:read", "session:list", "session:invalidate",
    "mfa:setup", "mfa:verify",
    "auth:login", "auth:logout",
    "audit:read",
    "oauth:read", "oauth:list", "oauth:delete" ]

/-- `VALID_RESOURCES` from permission.ts. -/
def VALID_RESOURCES : List String :=
  ["user", "role", "session", "mfa", "auth", "audit", "oauth"]

/-- `VALID_ACTIONS` from permission.ts. -/
def VALID_ACTIONS : List String :=
  [ "create", "read", "update", "delete", "assign", "verify", "setup",
    "login", "logout", "list", "invalidate", "rotate" ]

/-- `isPermission(value)`: split on `:`; both components must be truthy
(JS: non-undefined and non-empty); resource must be known; `*` action is
always valid; otherwise the action must be known and `resource:action`
must be in the catalog. -/
def isPermission (value : String) : Bool :=
  let parts := splitColon value
  let res := (parts.get? 0).getD ""
  let act := (parts.get? 1).getD ""
  if res == "" || act == "" then false
  else if !(VALID_RESOURCES.contains res) then false
  else if act == "*" then true
  else VALID_ACTIONS.contains act && PERMISSIONS.contains (res ++ ":" ++ act)

/-- `permissionImplies(grant, required)`: same resource, and the granted
action is the wildcard or exactly the required action. -/
def permissionImplies (grant required : String) : Bool :=
  let gRes := (splitColon grant).get? 0
  let gAct := (splitColon grant).get? 1
  let rRes := (splitColon required).get? 0
  let rAct := (splitColon required).get? 1
  if gRes != rRes then false
  else if gAct == some "*" then true
  else gAct == rAct

/-- `hasPermission(granted, required)`: some grant implies the requirement. -/
def hasPermission (granted : List String) (required : String) : Bool :=
  granted.any (fun g => permissionImplies g required)

/-- The per-resource wildcard permissions (`resource:*` for each valid resource). -/
def wildcardPerms : List String := VALID_RESOURCES.map (fun r => r ++ ":*")

/-- Every permission string the catalog accepts in `resource:action` shape:
the canonical catalog entries plus the per-resource wildcards. -/
def catalogPerms : List String := PERMISSIONS ++ wildcardPerms

/-- The resource component of a permission string. -/
def resourceOf (p : String) : String := ((splitColon p).get? 0).getD ""

/-- The action component of a permission string. -/
def actionOf (p : String) : String := ((splitColon p).get? 1).getD ""

/-- `ROLE_PRESETS` from permission.ts: permissions of the four built-in roles,
in source order. -/
def ROLE_PRESETS : List (String × List String) :=
  [ ("admin",
      [ "user:*", "role:assign", "role:read", "role:list", "session:list",
        "session:invalidate", "mfa:setup", "mfa:verify", "auth:login",
        "auth:logout", "audit:read", "oauth:list", "oauth:read", "oauth:delete" ]),
    ("security-analyst",
      [ "user:read", "user:list", "role:read", "role:list", "session:list",
        "session:read", "session:invalidate", "audit:read" ]),
    ("support",
      [ "user:read", "user:list", "mfa:verify", "auth:login", "auth:logout" ]),
    ("user",
      [ "auth:login", "auth:logout", "mfa:setup", "mfa:verify", "user:read",
        "user:update" ]) ]

/- ===================== src/domain/role.ts ===================== -/

/-- `isRoleName(name)`: `name` is a key of `ROLE_PRESETS`. -/
def isRoleName (name : String) : Bool :=
  (ROLE_PRESETS.find? (fun kv => kv.1 == name)).isSome

/-- `getPresetPermissions(name)`: the preset's permission list for a known
role name, `[]` otherwise. -/
def getPresetPermissions (name : String) : List String :=
  match ROLE_PRESETS.find? (fun kv => kv.1 == name) with
  | some kv => kv.2
  | none => []

/-- `Role` from role.ts. -/
structure Role where
  name : String
  permissions : List String
  description : Option String := none
deriving DecidableEq, Repr

/-- `Object.fromEntries(PERMISSIONS.map((p, i) => [p, i]))[a] ?? MAX_SAFE_INTEGER`:
the catalog index of a permission string, `MAX_SAFE_INTEGER` for strings not in
the catalog (in particular for wildcards, which therefore sort last). -/
def permIndex (p : String) : Nat :=
  let i := PERMISSIONS.indexOf p
  if i < PERMISSIONS.length then i else 9007199254740991

/-- Comparator order of `normalizePermissions`' sort: nondecreasing catalog
index. -/
def permLe (a b : String) : Prop := permIndex a ≤ permIndex b

instance : DecidableRel permLe := fun a b => Nat.decLe _ _

instance : IsTotal String permLe := ⟨fun a b => Nat.le_total _ _⟩

instance : IsTrans String permLe := ⟨fun _ _ _ h1 h2 => Nat.le_trans h1 h2⟩

/-- The `Set`-building loop of `normalizePermissions`: keeps the valid
permissions in first-occurrence order (`acc` is the set built so far, in
insertion order). -/
def dedupValidAux (acc : List String) : List String → List String
  | [] => acc
  | p :: ps =>
    if isPermission p && !(acc.contains p) then dedupValidAux (acc ++ [p]) ps
    else dedupValidAux acc ps

/-- `normalizePermissions(perms)` from role.ts: filter to valid permissions,
deduplicate keeping first occurrences, and stably sort by catalog index
(`Array.prototype.sort` is stable; `List.insertionSort permLe` computes the
same stable sort). -/
def normalizePermissions (perms : List String) : List String :=
  List.insertionSort permLe (dedupValidAux [] perms)

/-- `createRole({name, extraPermissions?})`: preset permissions (when the name
is a preset) merged with the extras, normalized. -/
def createRole (name : String) (extraPermissions : List String := []) : Role :=
  { name := name
    permissions := normalizePermissions (getPresetPermissions name ++ extraPermissions) }

/-- `mergeRolesPermissions(inputs)`: flatten all the input permission lists and
normalize (each `Role` input contributes its `permissions` list). -/
def mergeRolesPermissions (inputs : List (List String)) : List String :=
  normalizePermissions inputs.flatten

/-- Strict catalog-index order. -/
def permLt (a b : String) : Prop := permIndex a < permIndex b

instance : IsAntisymm String permLt :=
  ⟨fun _ _ h1 h2 => absurd (Nat.lt_trans h1 h2) (Nat.lt_irrefl _)⟩

/- ===================== src/domain/user.ts (RBAC evaluator) ===================== -/

/-- The catalog-less branch of `getEffectivePermissions`: preset names resolve
to `createRole(name)`, anything else becomes a custom role with no
permissions. -/
def defaultResolve (roles : List String) : List Role :=
  roles.map (fun rName =>
    if isRoleName rName then createRole rName
    else { name := rName, permissions := [] })

/-- The catalog branch of `getEffectivePermissions`: exact-name match in the
provided catalog; on a miss, a preset name falls back to `createRole(name)`
and any other name is pushed nowhere (contributes no role at all). -/
def catalogResolve (catalog : List Role) (roles : List String) : List Role :=
  roles.filterMap (fun rName =>
    match catalog.find? (fun r => r.name == rName) with
    | some r => some r
    | none => if isRoleName rName then some (createRole rName) else none)

/-- `getEffectivePermissions(user, roleCatalog?)` from user.ts: resolve each of
the user's role names (exact-name match in the provided catalog when it is
non-empty, falling back to a built-in preset, else contributing nothing) and
merge all resolved roles' permissions with the user's `extraPermissions`. -/
def getEffectivePermissions (roles : List String) (extraPermissions : List String)
    (roleCatalog : Option (List Role)) : List String :=
  let rolesFromCatalog : List Role :=
    match roleCatalog with
    | some catalog =>
      if catalog.length != 0 then catalogResolve catalog roles
      else defaultResolve roles
    | none => defaultResolve roles
  mergeRolesPermissions (rolesFromCatalog.map Role.permissions ++ [extraPermissions])

/-- Restatement of the specification's effective-permission rule, written from
the spec's words: each role name on the user resolves to the permissions of
the exact-name catalog match, else to the fallback preset role's permissions
when the name is a built-in preset name, else to zero permissions; the result
is the normalized merge of all resolved permissions with the user's extras
(see `getEffectivePermissions_spec`). -/
def specResolveRolePerms (catalog : List Role) (rName : String) : List String :=
  match catalog.find? (fun r => r.name == rName) with
  | some r => r.permissions
  | none => if isRoleName rName then (createRole rName).permissions else []

/- ===================== src/domain/session.ts ===================== -/

/-- `Session` from session.ts (ISO timestamps as epoch milliseconds). -/
structure Session where
  id : String
  userId : String
  issuedAt : Int
  expiresAt : Int
  lastUsedAt : Int
  revokedAt : Option Int := none
  ipHash : Option String := none
  userAgent : Option String := none
deriving DecidableEq, Repr

/-- `createSession(params)`: issues at `now`, expires `ttlMinutes * 60_000` ms
later. -/
def createSession (id userId : String) (ttlMinutes : Int) (now : Int)
    (ipHash userAgent : Option String) : Session :=
  { id := id, userId := userId, issuedAt := now
    expiresAt := now + ttlMinutes * 60000, lastUsedAt := now
    revokedAt := none, ipHash := ipHash, userAgent := userAgent }

/-- `revokeSession(s, when)`: sets `revokedAt`. -/
def revokeSession (s : Session) (whenMs : Int) : Session :=
  { s with revokedAt := some whenMs }

/-- `isExpired(s, at)`: `expiresAt <= at`. -/
def isExpired (s : Session) (atMs : Int) : Bool :=
  decide (s.expiresAt ≤ atMs)

/-- `isActive(s, at)`: not revoked and not expired. -/
def isActive (s : Session) (atMs : Int) : Bool :=
  s.revokedAt.isNone && !(isExpired s atMs)

/- ===================== src/services/auth.service.ts ===================== -/

/-- `User` from user.ts (optional JS fields as `Option`). -/
structure User where
  id : String
  email : String
  passHash : String
  roles : List String := []
  extraPermissions : List String := []
  mfaEnabled : Bool := false
  mfaSecret : Option String := none
  failedLoginAttempts : Option Nat := some 0
  lockedUntil : Option Int := some 0
  createdAt : Int := 0
  updatedAt : Int := 0
deriving DecidableEq, Repr

/-- `touchUpdated(u)`: refresh `updatedAt`. -/
def touchUpdated (u : User) (now : Int) : User := { u with updatedAt := now }

/-- The Hasher collaborator (password.services.ts boundary). -/
structure Hasher where
  verify : String → String → Bool
  needsRehash : String → Bool
  hash : String → String

/-- The OTP Provider collaborator (otplib boundary):
`verify (token) (secret)`. -/
structure Otp where
  verify : String → String → Bool

/-- `AuthError.code` values from auth.service.ts. -/
inductive AuthError where
  | INVALID_EMAIL
  | WEAK_PASSWORD
  | EMAIL_TAKEN
  | USER_NOT_FOUND
  | INVALID_CREDENTIALS
  | ACCOUNT_LOCKED
  | MFA_REQUIRED
  | MFA_NOT_ENABLED
  | MFA_INVALID
  | SESSION_NOT_FOUND
  | SESSION_INACTIVE
deriving DecidableEq, Repr

/-- `MAX_FAILED` from auth.service.ts. -/
def MAX_FAILED : Nat := 5

/-- `LOCK_MINUTES` from auth.service.ts. -/
def LOCK_MINUTES : Int := 15

/-- JS falsiness of a possibly-undefined string: `undefined` or `''`. -/
def strFalsy : Option String → Bool
  | none => true
  | some s => s == ""

/-- `bumpFailed(user)`: increment `failedLoginAttempts` (missing counts as 0);
on reaching `MAX_FAILED`, set `lockedUntil = now + LOCK_MINUTES minutes`;
refresh `updatedAt`. The result is what `updateUser` persists. -/
def bumpFailed (u : User) (now : Int) : User :=
  let fails := u.failedLoginAttempts.getD 0 + 1
  let u1 := { u with failedLoginAttempts := some fails }
  let u2 := if fails ≥ MAX_FAILED then { u1 with lockedUntil := some (now + LOCK_MINUTES * 60000) } else u1
  touchUpdated u2 now

/-- The lockout guard of `loginUser`:
`user.lockedUntil && user.lockedUntil > 0 && user.lockedUntil > now.getTime()`
(JS truthiness: `undefined` and `0` both fail the first conjunct). -/
def lockoutActive (lockedUntil : Option Int) (now : Int) : Bool :=
  match lockedUntil with
  | none => false
  | some v => decide (v ≠ 0) && decide (v > 0) && decide (v > now)

/-- `verifyTotp(user, code)`: false when no secret is stored, otherwise the
OTP provider's verdict. -/
def verifyTotp (o : Otp) (u : User) (code : String) : Bool :=
  if strFalsy u.mfaSecret then false else o.verify code (u.mfaSecret.getD "")

/-- The success tail of `loginUser`: reset the failure counter and lock,
persist the user, create and persist a session. -/
def loginSuccess (user : User) (ttl : Int) (sessionId : String)
    (ipHash userAgent : Option String) (now : Int) :
    Except AuthError (User × Session) × List User :=
  let u' := touchUpdated { user with failedLoginAttempts := some 0, lockedUntil := some 0 } now
  let s := createSession sessionId user.id ttl now ipHash userAgent
  (Except.ok (u', s), [u'])

/-- `loginUser(params)` from auth.service.ts. `userLookup` is the result of
`getUserByEmail`; `sessionId` stands for `randomUUID()`; `defaultTtl` for
`DEFAULT_TTL_MIN`; `now` for the wall clock during the call. The second
component collects the user records passed to `updateUser`, in order. -/
def loginUser (h : Hasher) (o : Otp) (userLookup : Option User) (password : String)
    (otpCode : Option String) (ttlMinutes : Option Int) (defaultTtl : Int)
    (sessionId : String) (ipHash userAgent : Option String) (now : Int) :
    Except AuthError (User × Session) × List User :=
  match userLookup with
  | none => (Except.error AuthError.USER_NOT_FOUND, [])
  | some user =>
    if lockoutActive user.lockedUntil now then
      (Except.error AuthError.ACCOUNT_LOCKED, [])
    else if !(h.verify password user.passHash) then
      (Except.error AuthError.INVALID_CREDENTIALS, [bumpFailed user now])
    else
      let user1 := if h.needsRehash user.passHash then { user with passHash := h.hash password } else user
      if user1.mfaEnabled then
        match otpCode with
        | none => (Except.error AuthError.MFA_REQUIRED, [])
        | some code =>
          if !(verifyTotp o user1 code) then
            (Except.error AuthError.MFA_INVALID, [bumpFailed user1 now])
          else loginSuccess user1 (ttlMinutes.getD defaultTtl) sessionId ipHash userAgent now
      else loginSuccess user1 (ttlMinutes.getD defaultTtl) sessionId ipHash userAgent now

/-- `logoutSession(sessionId)`: `sessionLookup` is the result of
`getSessionById`. The second component collects the sessions passed to
`updateSession`. -/
def logoutSession (sessionLookup : Option Session) (now : Int) :
    Except AuthError Session × List Session :=
  match sessionLookup with
  | none => (Except.error AuthError.SESSION_NOT_FOUND, [])
  | some s =>
    if !(isActive s now) then (Except.error AuthError.SESSION_INACTIVE, [])
    else
      let s' := revokeSession s now
      (Except.ok s', [s'])

/-- `setupMfa(userId)`: store a freshly generated secret (`secret` stands for
`authenticator.generateSecret()`) with `mfaEnabled = false` and persist. The
second component collects the users passed to `updateUser`. -/
def setupMfa (userLookup : Option User) (secret : String) (now : Int) :
    Except AuthError User × List User :=
  match userLookup with
  | none => (Except.error AuthError.USER_NOT_FOUND, [])
  | some user =>
    let user' := touchUpdated { user with mfaSecret := some secret, mfaEnabled := false } now
    (Except.ok user', [user'])

/-- `verifyMfa(userId, code)`: error when no pending secret; on a valid code,
enable MFA and persist; on an invalid code, return `false` with no write. -/
def verifyMfa (o : Otp) (userLookup : Option User) (code : String) (now : Int) :
    Except AuthError Bool × List User :=
  match userLookup with
  | none => (Except.error AuthError.USER_NOT_FOUND, [])
  | some user =>
    if strFalsy user.mfaSecret then (Except.error AuthError.MFA_NOT_ENABLED, [])
    else
      let ok := o.verify code (user.mfaSecret.getD "")
      if ok then
        let user' := touchUpdated { user with mfaEnabled := true } now
        (Except.ok true, [user'])
      else (Except.ok false, [])

/- ===================== Helper lemmas about normalizePermissions ===================== -/

theorem dedupValidAux_mem (l : List String) : ∀ (acc : List String) (a : String),
    a ∈ dedupValidAux acc l ↔ a ∈ acc ∨ (a ∈ l ∧ isPermission a = true) := by
  induction l with
  | nil => intro acc a; simp [dedupValidAux]
  | cons p ps ih =>
    intro acc a
    by_cases hv : isPermission p = true
    · by_cases hc : p ∈ acc
      · have hcond : (isPermission p && !(acc.contains p)) = false := by simp [hv, hc]
        rw [dedupValidAux, hcond, if_neg (by simp), ih]
        have hca : a = p → a ∈ acc := fun h => h ▸ hc
        simp only [List.mem_cons]
        tauto
      · have hcond : (isPermission p && !(acc.contains p)) = true := by simp [hv, hc]
        rw [dedupValidAux, hcond, if_pos rfl, ih]
        have hva : a = p → isPermission a = true := fun h => h ▸ hv
        simp only [List.mem_append, List.mem_cons, List.not_mem_nil, or_false]
        tauto
    · have hcond : (isPermission p && !(acc.contains p)) = false := by simp [hv]
      rw [dedupValidAux, hcond, if_neg (by simp), ih]
      have hva : a = p → ¬(isPermission a = true) := fun h hh => hv (h ▸ hh)
      simp only [List.mem_cons]
      tauto

theorem dedupValidAux_nodup (l : List String) : ∀ (acc : List String),
    acc.Nodup → (dedupValidAux acc l).Nodup := by
  induction l with
  | nil => intro acc h; simpa [dedupValidAux] using h
  | cons p ps ih =>
    intro acc hacc
    rw [dedupValidAux]
    by_cases hb : (isPermission p && !(acc.contains p)) = true
    · rw [hb, if_pos rfl]
      refine ih _ ?_
      have hp : p ∉ acc := by
        simp only [Bool.and_eq_true, Bool.not_eq_true'] at hb
        simpa using hb.2
      simp [List.nodup_append, hacc, hp]
    · have hb' : (isPermission p && !(acc.contains p)) = false := Bool.eq_false_iff.mpr hb
      rw [hb', if_neg (by simp)]
      exact ih _ hacc

theorem dedupValidAux_eq_self (l : List String) : ∀ (acc : List String),
    (∀ p ∈ l, isPermission p = true) → (acc ++ l).Nodup →
    dedupValidAux acc l = acc ++ l := by
  induction l with
  | nil => intro acc _ _; simp [dedupValidAux]
  | cons p ps ih =>
    intro acc hv hnd
    have hvp : isPermission p = true := hv p (List.mem_cons_self _ _)
    have hpacc : p ∉ acc := by
      intro hmem
      have := (List.nodup_append.mp hnd).2.2
      exact this hmem (List.mem_cons_self _ _)
    have hb : (isPermission p && !(acc.contains p)) = true := by simp [hvp, hpacc]
    rw [dedupValidAux, hb, if_pos rfl]
    have heq : acc ++ p :: ps = (acc ++ [p]) ++ ps := by simp
    rw [ih (acc ++ [p]) (fun q hq => hv q (List.mem_cons_of_mem _ hq)) (by rwa [← heq]), heq]

/-- Everything `normalizePermissions` returns is a valid permission. -/
theorem normalizePermissions_valid {a : String} {l : List String}
    (h : a ∈ normalizePermissions l) : isPermission a = true := by
  have := (List.perm_insertionSort permLe (dedupValidAux [] l)).mem_iff.mp h
  rcases (dedupValidAux_mem l [] a).mp this with h' | ⟨_, h'⟩
  · simp at h'
  · exact h'

/-- `normalizePermissions` returns a duplicate-free list. -/
theorem normalizePermissions_nodup (l : List String) : (normalizePermissions l).Nodup :=
  (List.perm_insertionSort permLe (dedupValidAux [] l)).symm.nodup
    (dedupValidAux_nodup l [] List.nodup_nil)

/-- Membership in `normalizePermissions`. -/
theorem normalizePermissions_mem {a : String} {l : List String} :
    a ∈ normalizePermissions l ↔ a ∈ l ∧ isPermission a = true := by
  rw [normalizePermissions, (List.perm_insertionSort permLe (dedupValidAux [] l)).mem_iff,
    dedupValidAux_mem]
  simp

/-- `normalizePermissions` output is sorted by catalog index. -/
theorem normalizePermissions_sorted (l : List String) :
    List.Sorted permLe (normalizePermissions l) :=
  List.sorted_insertionSort permLe (dedupValidAux [] l)

/-- On catalog entries, the catalog index is injective. -/
theorem permIndex_injOn : ∀ a ∈ PERMISSIONS, ∀ b ∈ PERMISSIONS,
    permIndex a = permIndex b → a = b := by decide

/-- `normalizePermissions` is idempotent. -/
theorem normalizePermissions_idem (X : List String) :
    normalizePermissions (normalizePermissions X) = normalizePermissions X := by
  have hvalid : ∀ p ∈ normalizePermissions X, isPermission p = true :=
    fun _ hp => normalizePermissions_valid hp
  have hnodup : (normalizePermissions X).Nodup := normalizePermissions_nodup X
  rw [normalizePermissions,
    dedupValidAux_eq_self (normalizePermissions X) [] hvalid (by simpa using hnodup)]
  simpa using (normalizePermissions_sorted X).insertionSort_eq

/-- When every valid permission in the input is a catalog entry,
`normalizePermissions` depends only on the set of input elements. -/
theorem normalizePermissions_mem_eq (l1 l2 : List String)
    (hmem : ∀ a, a ∈ l1 ↔ a ∈ l2)
    (hcat : ∀ p ∈ l1, isPermission p = true → p ∈ PERMISSIONS) :
    normalizePermissions l1 = normalizePermissions l2 := by
  have hmemn : ∀ a, a ∈ normalizePermissions l1 ↔ a ∈ normalizePermissions l2 := by
    intro a
    rw [normalizePermissions_mem, normalizePermissions_mem, hmem]
  have hperm : List.Perm (normalizePermissions l1) (normalizePermissions l2) :=
    (List.perm_ext_iff_of_nodup (normalizePermissions_nodup l1)
      (normalizePermissions_nodup l2)).mpr hmemn
  have hin1 : ∀ a ∈ normalizePermissions l1, a ∈ PERMISSIONS := by
    intro a ha
    have h' := normalizePermissions_mem.mp ha
    exact hcat a h'.1 h'.2
  have hin2 : ∀ a ∈ normalizePermissions l2, a ∈ PERMISSIONS :=
    fun a ha => hin1 a (hperm.mem_iff.mpr ha)
  have hstrict : ∀ (m : List String), List.Sorted permLe m → m.Nodup →
      (∀ a ∈ m, a ∈ PERMISSIONS) → List.Sorted permLt m := by
    intro m hs hnd hmemP
    have hand := hs.and hnd
    refine hand.imp_of_mem ?_
    intro a b ha hb hab
    rcases hab with ⟨hle, hne⟩
    have : permIndex a ≠ permIndex b := fun he =>
      hne (permIndex_injOn a (hmemP a ha) b (hmemP b hb) he)
    exact Nat.lt_of_le_of_ne hle this
  exact List.eq_of_perm_of_sorted hperm
    (hstrict _ (normalizePermissions_sorted l1) (normalizePermissions_nodup l1) hin1)
    (hstrict _ (normalizePermissions_sorted l2) (normalizePermissions_nodup l2) hin2)

/- ===================== Claim theorems ===================== -/

/-- Claim C5: `isActive(s, t)` holds exactly when `revokedAt` is unset and `t`
is strictly before `expiresAt`; once `revokeSession` has set `revokedAt`,
`isActive` is false at every time regardless of `expiresAt`; and a session
created with `ttlMinutes = 30` at time `T` is active at `T + 1min` and
inactive at `T + 31min`. -/
theorem c5_isActive_characterization :
    (∀ (s : Session) (t : Int),
      isActive s t = (s.revokedAt.isNone && decide (t < s.expiresAt))) ∧
    (∀ (s : Session) (w t : Int), isActive (revokeSession s w) t = false) ∧
    (∀ (id uid : String) (T : Int) (ip ua : Option String),
      isActive (createSession id uid 30 T ip ua) (T + 60000) = true ∧
      isActive (createSession id uid 30 T ip ua) (T + 31 * 60000) = false) := by
  refine ⟨?_, ?_, ?_⟩
  · intro s t
    simp only [isActive, isExpired]
    congr 1
    rw [← decide_not]
    exact decide_eq_decide.mpr (by omega)
  · intro s w t
    simp [isActive, revokeSession]
  · intro id uid T ip ua
    constructor <;> simp [isActive, isExpired, createSession]

/-- Claim C9 counterexample: `createSession` performs no validation of
`ttlMinutes`; with `ttlMinutes = 0` the session it builds has
`expiresAt = issuedAt`, violating the claimed invariant
`expiresAt > issuedAt` "for every ttlMinutes value". -/
theorem c9_zero_ttl_counterexample :
    ¬ ((createSession "sess" "usr" 0 0 none none).issuedAt
        < (createSession "sess" "usr" 0 0 none none).expiresAt) := by
  decide

/-- Claim C9 (amended): every session produced by `createSession` with a
positive `ttlMinutes` satisfies `expiresAt > issuedAt`. -/
theorem c9_expiry_after_issue (id uid : String) (ttl now : Int)
    (ip ua : Option String) (h : 0 < ttl) :
    (createSession id uid ttl now ip ua).issuedAt
      < (createSession id uid ttl now ip ua).expiresAt := by
  simp only [createSession]
  omega

/-- Witness for C9: ttl 30 is positive and the session expires after issue. -/
theorem c9_expiry_after_issue_witness :
    (0 : Int) < 30 ∧
    (createSession "sess" "usr" 30 0 none none).issuedAt
      < (createSession "sess" "usr" 30 0 none none).expiresAt :=
  ⟨by decide, c9_expiry_after_issue "sess" "usr" 30 0 none none (by decide)⟩

/-- Claim C6: over the permission strings the catalog accepts (catalog entries
and per-resource wildcards), `permissionImplies grant required` holds exactly
when both have the same resource and the granted action is `*` or equals the
required action; in particular it is reflexive, `resource:*` implies every
valid action of that resource, and a wildcard never crosses resources. -/
theorem c6_permissionImplies_exact :
    (∀ p ∈ catalogPerms, permissionImplies p p = true) ∧
    (∀ g ∈ catalogPerms, ∀ r ∈ catalogPerms,
      (permissionImplies g r = true ↔
        (resourceOf g = resourceOf r ∧
          (actionOf g = "*" ∨ actionOf g = actionOf r)))) ∧
    (∀ w ∈ wildcardPerms, ∀ p ∈ PERMISSIONS,
      resourceOf w = resourceOf p → permissionImplies w p = true) ∧
    (∀ w ∈ wildcardPerms, ∀ p ∈ catalogPerms,
      resourceOf w ≠ resourceOf p → permissionImplies w p = false) := by
  refine ⟨by decide, by decide, by decide, by decide⟩

/-- Witness for C6 at concrete permissions. -/
theorem c6_permissionImplies_exact_witness :
    permissionImplies "user:create" "user:create" = true ∧
    permissionImplies "user:*" "user:read" = true ∧
    permissionImplies "user:*" "role:read" = false :=
  ⟨c6_permissionImplies_exact.1 "user:create" (by decide),
   c6_permissionImplies_exact.2.2.1 "user:*" (by decide) "user:read" (by decide) (by decide),
   c6_permissionImplies_exact.2.2.2 "user:*" (by decide) "role:read" (by decide) (by decide)⟩

/-- Claim C4: `logoutSession` distinguishes a missing session
(`SESSION_NOT_FOUND`, nothing written) from an existing inactive one
(`SESSION_INACTIVE`, nothing written); on an active session it revokes at the
current time and persists exactly that revoked session. -/
theorem c4_logout_cases :
    (∀ now : Int,
      logoutSession none now = (Except.error AuthError.SESSION_NOT_FOUND, [])) ∧
    (∀ (s : Session) (now : Int), isActive s now = false →
      logoutSession (some s) now = (Except.error AuthError.SESSION_INACTIVE, [])) ∧
    (∀ (s : Session) (now : Int), isActive s now = true →
      logoutSession (some s) now
          = (Except.ok (revokeSession s now), [revokeSession s now]) ∧
        (revokeSession s now).revokedAt = some now) := by
  refine ⟨fun _ => rfl, ?_, ?_⟩
  · intro s now h
    simp [logoutSession, h]
  · intro s now h
    exact ⟨by simp [logoutSession, h], rfl⟩

/-- Witness for C4: an already-revoked session yields `SESSION_INACTIVE`,
and an active one is revoked in place. -/
theorem c4_logout_cases_witness :
    (isActive (Session.mk "s1" "u1" 0 3600000 0 (some 10) none none) 20 = false ∧
      logoutSession (some (Session.mk "s1" "u1" 0 3600000 0 (some 10) none none)) 20
        = (Except.error AuthError.SESSION_INACTIVE, [])) ∧
    (isActive (Session.mk "s2" "u1" 0 3600000 0 none none none) 20 = true ∧
      logoutSession (some (Session.mk "s2" "u1" 0 3600000 0 none none none)) 20
        = (Except.ok (revokeSession (Session.mk "s2" "u1" 0 3600000 0 none none none) 20),
           [revokeSession (Session.mk "s2" "u1" 0 3600000 0 none none none) 20])) :=
  ⟨⟨by decide, c4_logout_cases.2.1 _ 20 (by decide)⟩,
   ⟨by decide, (c4_logout_cases.2.2 _ 20 (by decide)).1⟩⟩

/-- Claim C2: when `lockedUntil > 0` and the current time is strictly before
it, `loginUser` fails with `ACCOUNT_LOCKED` and persists nothing — the user
record is unchanged and no failed attempt is consumed; the outcome is the
same for every Hasher and OTP provider, so no credential check is involved. -/
theorem c2_lockout_short_circuits (h : Hasher) (o : Otp) (user : User)
    (password : String) (otpCode : Option String) (ttl : Option Int) (dttl : Int)
    (sid : String) (ip ua : Option String) (now L : Int)
    (hL : user.lockedUntil = some L) (hpos : 0 < L) (hfut : now < L) :
    loginUser h o (some user) password otpCode ttl dttl sid ip ua now
      = (Except.error AuthError.ACCOUNT_LOCKED, []) := by
  have hla : lockoutActive user.lockedUntil now = true := by
    simp only [lockoutActive, hL, Bool.and_eq_true, decide_eq_true_eq]
    omega
  simp [loginUser, hla]

/-- Witness for C2: a user locked until 1000 at time 500 is rejected with
`ACCOUNT_LOCKED` and no write, for a hasher that would accept the password. -/
theorem c2_lockout_short_circuits_witness :
    (User.mk "u1" "a@b.c" "h0" [] [] false none (some 3) (some 1000) 0 0).lockedUntil
        = some 1000 ∧
    (0 : Int) < 1000 ∧ (500 : Int) < 1000 ∧
    loginUser (Hasher.mk (fun _ _ => true) (fun _ => false) (fun _ => ""))
        (Otp.mk (fun _ _ => true))
        (some (User.mk "u1" "a@b.c" "h0" [] [] false none (some 3) (some 1000) 0 0))
        "pw" none none 60 "sid" none none 500
      = (Except.error AuthError.ACCOUNT_LOCKED, []) :=
  ⟨rfl, by decide, by decide,
   c2_lockout_short_circuits _ _ _ _ _ _ _ _ _ _ 500 1000 rfl (by decide) (by decide)⟩

/-- Claim C1: past the lockout gate, a password mismatch makes `loginUser`
persist exactly `bumpFailed user now` and fail `INVALID_CREDENTIALS`; a failed
MFA code goes through the same `bumpFailed` (on the possibly-rehashed user)
and fails `MFA_INVALID`; and `bumpFailed` increments `failedLoginAttempts` by
one and, when the counter thereby reaches `MAX_FAILED = 5`, sets
`lockedUntil = now + 15` minutes. -/
theorem c1_failed_attempt_bumping (h : Hasher) (o : Otp) (user : User)
    (password : String) (otpCode : Option String) (ttl : Option Int) (dttl : Int)
    (sid : String) (ip ua : Option String) (now : Int)
    (hlock : lockoutActive user.lockedUntil now = false) :
    (h.verify password user.passHash = false →
      loginUser h o (some user) password otpCode ttl dttl sid ip ua now
        = (Except.error AuthError.INVALID_CREDENTIALS, [bumpFailed user now])) ∧
    (∀ (code : String) (user1 : User),
      otpCode = some code →
      user1 = (if h.needsRehash user.passHash then
                 { user with passHash := h.hash password } else user) →
      h.verify password user.passHash = true →
      user1.mfaEnabled = true →
      verifyTotp o user1 code = false →
      loginUser h o (some user) password otpCode ttl dttl sid ip ua now
        = (Except.error AuthError.MFA_INVALID, [bumpFailed user1 now])) ∧
    (∀ (u : User) (t : Int),
      (bumpFailed u t).failedLoginAttempts = some (u.failedLoginAttempts.getD 0 + 1) ∧
      (u.failedLoginAttempts.getD 0 + 1 = MAX_FAILED →
        (bumpFailed u t).lockedUntil = some (t + LOCK_MINUTES * 60000))) := by
  refine ⟨?_, ?_, ?_⟩
  · intro hpw
    simp [loginUser, hlock, hpw]
  · intro code user1 hcode huser1 hpw hmfa hotp
    subst huser1
    subst hcode
    simp only [loginUser, hlock, Bool.false_eq_true, if_false, hpw, Bool.not_true,
      hmfa, if_true, hotp, Bool.not_false]
  · intro u t
    constructor
    · by_cases h5 : u.failedLoginAttempts.getD 0 + 1 ≥ MAX_FAILED <;>
        simp [bumpFailed, touchUpdated, h5]
    · intro h5
      have : u.failedLoginAttempts.getD 0 + 1 ≥ MAX_FAILED := by omega
      simp [bumpFailed, touchUpdated, this]

/-- Witness for C1: with a rejecting hasher, a fresh user's counter is bumped
to 1 and the login fails with `INVALID_CREDENTIALS`. -/
theorem c1_failed_attempt_bumping_witness :
    lockoutActive (User.mk "u1" "a@b.c" "h0" [] [] false none (some 0) (some 0) 0 0).lockedUntil 0
        = false ∧
    (Hasher.mk (fun _ _ => false) (fun _ => false) (fun _ => "")).verify "pw"
        (User.mk "u1" "a@b.c" "h0" [] [] false none (some 0) (some 0) 0 0).passHash = false ∧
    loginUser (Hasher.mk (fun _ _ => false) (fun _ => false) (fun _ => ""))
        (Otp.mk (fun _ _ => false))
        (some (User.mk "u1" "a@b.c" "h0" [] [] false none (some 0) (some 0) 0 0))
        "pw" none none 60 "sid" none none 0
      = (Except.error AuthError.INVALID_CREDENTIALS,
         [bumpFailed (User.mk "u1" "a@b.c" "h0" [] [] false none (some 0) (some 0) 0 0) 0]) :=
  ⟨by decide, rfl,
   (c1_failed_attempt_bumping _ _ _ "pw" none none 60 "sid" none none 0 (by decide)).1 rfl⟩

/-- Claim C8: `setupMfa` stores the freshly generated secret with
`mfaEnabled = false` (overwriting any prior secret) and persists exactly that
record; `verifyMfa` fails `MFA_NOT_ENABLED` when no secret is stored, enables
MFA and persists exactly when the OTP provider accepts the code, and returns
`false` without error when it rejects it. -/
theorem c8_mfa_setup_then_verify :
    (∀ (user : User) (secret : String) (now : Int),
      ∃ u', setupMfa (some user) secret now = (Except.ok u', [u']) ∧
        u'.mfaSecret = some secret ∧ u'.mfaEnabled = false) ∧
    (∀ (o : Otp) (user : User) (code : String) (now : Int),
      strFalsy user.mfaSecret = true →
      verifyMfa o (some user) code now = (Except.error AuthError.MFA_NOT_ENABLED, [])) ∧
    (∀ (o : Otp) (user : User) (code secret : String) (now : Int),
      user.mfaSecret = some secret → secret ≠ "" → o.verify code secret = true →
      ∃ u', verifyMfa o (some user) code now = (Except.ok true, [u']) ∧
        u'.mfaEnabled = true) ∧
    (∀ (o : Otp) (user : User) (code secret : String) (now : Int),
      user.mfaSecret = some secret → secret ≠ "" → o.verify code secret = false →
      verifyMfa o (some user) code now = (Except.ok false, [])) := by
  refine ⟨?_, ?_, ?_, ?_⟩
  · intro user secret now
    exact ⟨_, rfl, rfl, rfl⟩
  · intro o user code now hsf
    simp [verifyMfa, hsf]
  · intro o user code secret now hsec hne hv
    have hsf : strFalsy user.mfaSecret = false := by simp [strFalsy, hsec, hne]
    refine ⟨touchUpdated { user with mfaEnabled := true } now, ?_, rfl⟩
    simp [verifyMfa, hsf, hsec, hv, strFalsy, hne]
  · intro o user code secret now hsec hne hv
    have hsf : strFalsy user.mfaSecret = false := by simp [strFalsy, hsec, hne]
    simp [verifyMfa, hsf, hsec, hv, strFalsy, hne]

/-- Witness for C8: verify with a rejecting provider returns `ok false`,
and with no pending secret returns `MFA_NOT_ENABLED`. -/
theorem c8_mfa_setup_then_verify_witness :
    (strFalsy (User.mk "u1" "a@b.c" "h0" [] [] false none (some 0) (some 0) 0 0).mfaSecret
        = true ∧
      verifyMfa (Otp.mk (fun _ _ => true))
          (some (User.mk "u1" "a@b.c" "h0" [] [] false none (some 0) (some 0) 0 0)) "123" 0
        = (Except.error AuthError.MFA_NOT_ENABLED, [])) ∧
    ((User.mk "u1" "a@b.c" "h0" [] [] false (some "S3CR3T") (some 0) (some 0) 0 0).mfaSecret
        = some "S3CR3T" ∧ "S3CR3T" ≠ "" ∧
      (Otp.mk (fun _ _ => false)).verify "123" "S3CR3T" = false ∧
      verifyMfa (Otp.mk (fun _ _ => false))
          (some (User.mk "u1" "a@b.c" "h0" [] [] false (some "S3CR3T") (some 0) (some 0) 0 0))
          "123" 0
        = (Except.ok false, [])) :=
  ⟨⟨by decide, c8_mfa_setup_then_verify.2.1 _ _ "123" 0 (by decide)⟩,
   ⟨rfl, by decide, rfl,
    c8_mfa_setup_then_verify.2.2.2 _ _ "123" "S3CR3T" 0 rfl (by decide) rfl⟩⟩

/-- Claim C10: for an existing user with a stored (non-empty) MFA secret,
when the OTP provider rejects the code `verifyMfa` returns `ok false` and
passes nothing to `updateUser` — the stored user record is untouched. -/
theorem c10_verifyMfa_reject_is_pure (o : Otp) (user : User)
    (code secret : String) (now : Int)
    (hsec : user.mfaSecret = some secret) (hne : secret ≠ "")
    (hv : o.verify code secret = false) :
    verifyMfa o (some user) code now = (Except.ok false, []) := by
  have hsf : strFalsy user.mfaSecret = false := by simp [strFalsy, hsec, hne]
  simp [verifyMfa, hsf, hsec, hv, strFalsy, hne]

/-- Witness for C10 at a concrete rejecting provider. -/
theorem c10_verifyMfa_reject_is_pure_witness :
    (User.mk "u2" "b@b.c" "h0" [] [] false (some "S3CR3T") (some 0) (some 0) 0 0).mfaSecret
        = some "S3CR3T" ∧ "S3CR3T" ≠ "" ∧
    (Otp.mk (fun _ _ => false)).verify "000" "S3CR3T" = false ∧
    verifyMfa (Otp.mk (fun _ _ => false))
        (some (User.mk "u2" "b@b.c" "h0" [] [] false (some "S3CR3T") (some 0) (some 0) 0 0))
        "000" 7
      = (Except.ok false, []) :=
  ⟨rfl, by decide, rfl,
   c10_verifyMfa_reject_is_pure _ _ "000" "S3CR3T" 7 rfl (by decide) rfl⟩

/-- Claim C7 counterexample: `normalizePermissions` is not order-independent.
The inputs `["user:*", "role:*"]` and `["role:*", "user:*"]` contain the same
elements, yet normalize to different lists: both wildcards share the
`MAX_SAFE_INTEGER` sort key, so the stable sort keeps them in input order. -/
theorem c7_order_dependence_counterexample :
    (∀ a, a ∈ (["user:*", "role:*"] : List String)
        ↔ a ∈ (["role:*", "user:*"] : List String)) ∧
    normalizePermissions ["user:*", "role:*"]
      ≠ normalizePermissions ["role:*", "user:*"] := by
  constructor
  · intro a
    simp only [List.mem_cons, List.not_mem_nil, or_false]
    tauto
  · decide

/-- Claim C7 (amended): `normalizePermissions` keeps exactly the valid
permissions of its input (deduplicated, sorted by catalog index) and is
idempotent on every input; it is order-independent whenever every valid
permission in the input is a catalog entry (no wildcards) — with two or more
distinct wildcards the output keeps the wildcards in input order. -/
theorem c7_normalize_idempotent_orderfree :
    (∀ X : List String, ∀ a,
      a ∈ normalizePermissions X ↔ a ∈ X ∧ isPermission a = true) ∧
    (∀ X : List String, (normalizePermissions X).Nodup) ∧
    (∀ X : List String, List.Sorted permLe (normalizePermissions X)) ∧
    (∀ X : List String,
      normalizePermissions (normalizePermissions X) = normalizePermissions X) ∧
    (∀ l1 l2 : List String, (∀ a, a ∈ l1 ↔ a ∈ l2) →
      (∀ p ∈ l1, isPermission p = true → p ∈ PERMISSIONS) →
      normalizePermissions l1 = normalizePermissions l2) :=
  ⟨fun _ _ => normalizePermissions_mem, normalizePermissions_nodup,
   normalizePermissions_sorted, normalizePermissions_idem,
   normalizePermissions_mem_eq⟩

/-- Witness for C7: two wildcard-free inputs with the same elements in
different orders normalize identically. -/
theorem c7_normalize_idempotent_orderfree_witness :
    (∀ a, a ∈ (["user:read", "bogus", "user:create"] : List String)
        ↔ a ∈ (["user:create", "user:read", "bogus"] : List String)) ∧
    (∀ p ∈ (["user:read", "bogus", "user:create"] : List String),
      isPermission p = true → p ∈ PERMISSIONS) ∧
    normalizePermissions ["user:read", "bogus", "user:create"]
      = normalizePermissions ["user:create", "user:read", "bogus"] :=
  ⟨fun a => by simp only [List.mem_cons, List.not_mem_nil, or_false]; tauto,
   by decide,
   c7_normalize_idempotent_orderfree.2.2.2.2 _ _
     (fun a => by simp only [List.mem_cons, List.not_mem_nil, or_false]; tauto)
     (by decide)⟩

/-- Claim C3: with a non-empty role catalog, `getEffectivePermissions` equals
the normalized merge of the user's `extraPermissions` with, per role name, the
permissions of the exact-name catalog match, else the fallback preset role for
a built-in name, else nothing (`specResolveRolePerms` spells out that
per-name rule in the spec's words). -/
theorem c3_effective_permissions_resolution (roles extras : List String)
    (catalog : List Role) (hne : catalog ≠ []) :
    getEffectivePermissions roles extras (some catalog)
      = normalizePermissions
          ((roles.map (specResolveRolePerms catalog)).flatten ++ extras) := by
  have hlen : (catalog.length != 0) = true := by
    simp only [bne_iff_ne, ne_eq]
    exact fun h => hne (List.length_eq_zero.mp h)
  have hjoin : ((catalogResolve catalog roles).map Role.permissions).flatten
      = (roles.map (specResolveRolePerms catalog)).flatten := by
    induction roles with
    | nil => rfl
    | cons r rs ih =>
      simp only [catalogResolve, List.filterMap_cons] at *
      cases hfind : catalog.find? (fun x => x.name == r) with
      | some role =>
        simp only [specResolveRolePerms, hfind, List.map_cons, List.flatten_cons]
        rw [ih]
      | none =>
        by_cases hrn : isRoleName r = true
        · simp only [specResolveRolePerms, hfind, hrn, if_true, List.map_cons,
            List.flatten_cons]
          rw [ih]
        · have hrn' : isRoleName r = false := by
            revert hrn; cases isRoleName r <;> simp
          simp only [specResolveRolePerms, hfind, hrn', Bool.false_eq_true, if_false,
            List.map_cons, List.flatten_cons, List.nil_append]
          rw [ih]
  simp only [getEffectivePermissions, hlen, if_true, mergeRolesPermissions,
    List.flatten_append, List.flatten_cons, List.flatten_nil, List.append_nil, hjoin]

/-- Witness for C3: a catalog with one custom role, a user holding that role,
a preset role and an unknown role. -/
theorem c3_effective_permissions_resolution_witness :
    ([Role.mk "custom" ["user:read"] none] : List Role) ≠ [] ∧
    getEffectivePermissions ["custom", "support", "ghost"] ["mfa:setup"]
        (some [Role.mk "custom" ["user:read"] none])
      = normalizePermissions
          (((["custom", "support", "ghost"] : List String).map
              (specResolveRolePerms [Role.mk "custom" ["user:read"] none])).flatten
            ++ ["mfa:setup"]) :=
  ⟨by decide,
   c3_effective_permissions_resolution ["custom", "support", "ghost"] ["mfa:setup"]
     [Role.mk "custom" ["user:read"] none] (by decide)⟩
